import Mathlib

/-!
Verification of the httptool HTTP load-generation and evaluation engine.

This file gives a shallow embedding, in Lean 4, of the parts of the Go
source that the verified properties talk about:

* `pkg/ir/context.go` — evaluation contexts and evaluator decisions;
* `pkg/evaluator` (in `pkg/executor/cookies.go` bundle) — decision
  validation, the evaluator manager's failure modes, and the built-in
  `DefaultEvaluator`;
* `pkg/orchestrator/orchestrator.go` — the `ExecuteOne` retry loop and
  `calculateStats`;
* `pkg/executor/cookies.go` — the HTTP executor's context construction
  and the per-executor cookie jar;
* the `scenario` package — `compareValues` / assertion checking,
  `extractVariables`, `executeIterations` iteration distribution,
  `Compiler.replaceVariables` and `ReplaceRuntimeVariables`.

Go maps are modelled as association lists, Go strings as Lean `String`
(recursion happens on the underlying `List Char`), machine integers as
`Int` or `Nat` where the source only ever holds small non-negative
counts, and fallible calls as `Except` / `Option`.  External effects
(the HTTP transport, the evaluator subprocess, the regexp engine, JSON
parsing of wire bytes) enter the model as explicit parameters, so every
definition stays executable.
-/

namespace HttpTool

/-! ### Go `strings` package primitives used by the embedded code

These model, at the `List Char` level, exactly the library calls the Go
source makes: `strings.HasPrefix`, `strings.TrimPrefix`,
`strings.Contains`, `strings.ReplaceAll`, `strings.TrimSpace`.
-/

def lbrace : Char := Char.ofNat 123

def rbrace : Char := Char.ofNat 125

/-- `listStartsWith pat l` is true when `pat` begins `l` (Go `strings.HasPrefix`). -/
def listStartsWith : List Char → List Char → Bool
  | [], _ => true
  | _ :: _, [] => false
  | p :: ps, c :: cs => p == c && listStartsWith ps cs

/-- Go `strings.HasPrefix s pfx`. -/
def goStartsWith (s pfx : String) : Bool :=
  listStartsWith pfx.data s.data

/-- Go `strings.TrimPrefix s pfx`. -/
def goTrimStart (s pfx : String) : String :=
  if goStartsWith s pfx then ⟨s.data.drop pfx.data.length⟩ else s

/-- `listContains sub l` is true when `sub` occurs inside `l` (Go `strings.Contains`). -/
def listContains (sub : List Char) : List Char → Bool
  | [] => sub.isEmpty
  | c :: rest => listStartsWith sub (c :: rest) || listContains sub rest

/-- Go `strings.Contains s sub`. -/
def goContains (s sub : String) : Bool :=
  listContains sub.data s.data

/-- One fuel-indexed pass of Go `strings.ReplaceAll`: replaces non-overlapping
occurrences of `pat` left to right.  The fuel only serves structural
recursion; with `fuel ≥ l.length` (and `pat ≠ []`) it never runs out, and
when no occurrence exists the result is `l` for every fuel. -/
def replaceAllAux (pat rep : List Char) : Nat → List Char → List Char
  | _, [] => []
  | 0, l => l
  | fuel + 1, c :: rest =>
    if listStartsWith pat (c :: rest) then
      rep ++ replaceAllAux pat rep fuel (rest.drop (pat.length - 1))
    else
      c :: replaceAllAux pat rep fuel rest

/-- Go `strings.ReplaceAll s pat rep` (every call site in the source uses a
non-empty literal pattern; an empty pattern is returned unchanged). -/
def goReplaceAll (s pat rep : String) : String :=
  if pat.data.isEmpty then s
  else ⟨replaceAllAux pat.data rep.data s.data.length s.data⟩

/-- Go `strings.TrimSpace`. -/
def goTrimSpace (s : String) : String :=
  ⟨((s.data.dropWhile Char.isWhitespace).reverse.dropWhile Char.isWhitespace).reverse⟩

/-- Association-list lookup, modelling Go `m[k]` with `ok` reporting. -/
def alistLookup {α : Type} (l : List (String × α)) (k : String) : Option α :=
  match l with
  | [] => none
  | kv :: rest => if kv.1 == k then some kv.2 else alistLookup rest k

/-- Association-list insert/overwrite, modelling Go `m[k] = v`. -/
def alistInsert {α : Type} (l : List (String × α)) (k : String) (v : α) : List (String × α) :=
  match l with
  | [] => [(k, v)]
  | kv :: rest => if kv.1 == k then (k, v) :: rest else kv :: alistInsert rest k v

/-! ### Data model (`pkg/ir/context.go`)

`JsonValue` stands for Go's `any` holding decoded JSON (or raw text via
`.str`).  `Response`, `EvaluationContext`, `Actions` and
`EvaluatorDecision` mirror the structs of `pkg/ir/context.go`; the `IR`
and `ExecutedRequest` back-pointers, mutations, latency float and
metadata map are omitted because no verified property reads them.
-/

inductive JsonValue where
  | null
  | bool (b : Bool)
  | num (n : Int)
  | str (s : String)
  | arr (elems : List JsonValue)
  | obj (fields : List (String × JsonValue))

/-- `ir.Response` (status, headers, body, size, transport-error string). -/
structure Response where
  status : Int
  headers : List (String × String)
  body : JsonValue
  sizeBytes : Int
  error : String

/-- `ir.EvaluationContext` restricted to the fields the claims read. -/
structure EvaluationContext where
  response : Response
  vars : List (String × JsonValue)

/-- `ir.Actions` (`retry_after_ms`, `max_retries`, `goto`). -/
structure Actions where
  retryAfterMs : Int
  maxRetries : Int
  goto : String

/-- `ir.EvaluatorDecision` (decision tag, reason, optional actions). -/
structure EvaluatorDecision where
  decision : String
  reason : String
  actions : Option Actions

/-! ### Evaluator gateway (`evaluator` package)

`Manager.Evaluate` runs a subprocess; everything that can come back from
that subprocess is modelled by `SubprocessOutcome`:
non-zero exit / spawn failure (`runError`), timeout (`timeout`),
stdout that does not decode into an `EvaluatorDecision` (`output none`)
and decoded stdout (`output (some d)`).  `managerEvaluate` then follows
the Go control flow of `Manager.Evaluate`: error paths become `.error`,
decoded decisions are passed through `validateDecision`.
-/

inductive SubprocessOutcome where
  | timeout
  | runError (stderr : String)
  | output (decoded : Option EvaluatorDecision)

/-- `Manager.validateDecision`: decision tag must be one of the four
valid tags; a branch decision needs a non-empty `goto`; a retry decision
must not carry a negative delay. -/
def validateDecision (d : EvaluatorDecision) : Option String :=
  if !(d.decision == "pass" || d.decision == "retry" || d.decision == "fail" || d.decision == "branch") then
    some ("invalid decision type: " ++ d.decision)
  else if d.decision == "branch" &&
      (match d.actions with
       | none => true
       | some a => a.goto == "") then
    some "branch decision requires goto action"
  else if d.decision == "retry" then
    match d.actions with
    | some a => if a.retryAfterMs < 0 then some "retry_after_ms cannot be negative" else none
    | none => none
  else
    none

/-- `Manager.Evaluate` outcome as seen by the orchestrator: any failure
mode is surfaced as an error string. -/
def managerEvaluate (out : SubprocessOutcome) : Except String EvaluatorDecision :=
  match out with
  | .timeout => .error "evaluator timeout"
  | .runError stderr => .error ("evaluator failed (stderr: " ++ stderr ++ ")")
  | .output none => .error "failed to parse evaluator output"
  | .output (some d) =>
    match validateDecision d with
    | some msg => .error ("invalid evaluator decision: " ++ msg)
    | none => .ok d

/-- `evaluator.DefaultEvaluator`: pass, except fail with reason
`HTTP <status> error` when the status is at least 400. -/
def DefaultEvaluator (ctx : EvaluationContext) : EvaluatorDecision :=
  let decision : EvaluatorDecision :=
    { decision := "pass", reason := "default evaluator", actions := none }
  if ctx.response.status ≥ 400 then
    { decision with
        decision := "fail"
        reason := "HTTP " ++ Int.repr ctx.response.status ++ " error" }
  else
    decision

/-- The decision the orchestrator acts on (`ExecuteOne` lines 93–97):
the external evaluator's decision, or the default evaluator's on any
evaluation error. -/
def evalDecision (out : SubprocessOutcome) (ctx : EvaluationContext) : EvaluatorDecision :=
  match managerEvaluate out with
  | .ok d => d
  | .error _ => DefaultEvaluator ctx

/-- A concrete evaluation context with a 404 response, used as a witness input. -/
def ctx404 : EvaluationContext :=
  { response := { status := 404, headers := [], body := .null, sizeBytes := 0, error := "" }
    vars := [] }

/-! ### Shared scenario cookie jar (`scenario.NewExecutor`, `Executor.executeNode`,
`executor.Execute`)

`scenario.NewExecutor` builds ONE `executor.Executor` (hence one
`CookieJar`) and `Executor.executeNode` sends every request of every
virtual user through that same `httpExecutor`.  `executor.Execute`
attaches the jar's cookies for the request URL before sending
(cookies.go lines 158–164) and stores the response's `Set-Cookie`
values back afterwards (lines 209–215).  We model the jar for a single
origin (all requests of the run target the same URL) as a name→value
list and replay one reachable interleaving of the VU goroutines as a
sequential schedule of requests. -/

/-- Store one response cookie into the jar, overwriting a same-named cookie. -/
def insertCookie (jar : List (String × String)) (c : String × String) : List (String × String) :=
  match jar with
  | [] => [c]
  | k :: rest => if k.1 == c.1 then c :: rest else k :: insertCookie rest c

/-- Store a response's `Set-Cookie` values back into the jar. -/
def jarStore (jar : List (String × String)) (cs : List (String × String)) : List (String × String) :=
  cs.foldl insertCookie jar

/-- One request issued by a virtual user, together with the cookies its
response sets. -/
structure VURequest where
  vu : Nat
  respSetCookies : List (String × String)

/-- Replay a sequential schedule of requests through the scenario
executor's single shared jar; for each request, record which virtual
user issued it and which cookies the executor attached to it. -/
def runSharedJar : List VURequest → List (String × String) → List (Nat × List (String × String))
  | [], _ => []
  | e :: rest, jar => (e.vu, jar) :: runSharedJar rest (jarStore jar e.respSetCookies)

/-! ### Runtime assertions (`Executor.compareValues`, `Executor.checkAssertion`) -/

/-- `Executor.compareValues` (scenario executor lines 471–486): only
`==`, `!=` and `contains` are implemented; every other operator falls
through to `return true`. -/
def compareValues (actual operator expected : String) : Bool :=
  let a := goTrimSpace actual
  let e := goTrimSpace expected
  if operator == "==" then a == e
  else if operator == "!=" then !(a == e)
  else if operator == "contains" then goContains a e
  else true

/-- The `AssertStatus` arm of `Executor.checkAssertion` (lines 448–452):
the response status is rendered with `%d` and handed to
`compareValues` together with the assertion's operator and value.  (The
latency and body arms route every operator through the same
`compareValues`.) -/
def checkAssertionStatus (operator value : String) (status : Int) : Bool :=
  compareValues (Int.repr status) operator value

/-! ### Variable extraction (`Executor.extractVariables`, lines 363–398)

The regexp engine is external (`regexp.MustCompile` /
`FindStringSubmatch`), so it enters the model as the parameter
`regexExtract`; JSON-path walking (`Executor.extractJSONPath`) is pure
and translated. -/

/-- Split on a separator character (Go `strings.Split` with a one-character separator). -/
def splitOnCharAux (sep : Char) : List Char → List Char → List (List Char)
  | [], acc => [acc.reverse]
  | c :: rest, acc =>
    if c == sep then acc.reverse :: splitOnCharAux sep rest []
    else splitOnCharAux sep rest (c :: acc)

/-- Go `strings.Split s (String.singleton sep)`. -/
def goSplitOnChar (s : String) (sep : Char) : List String :=
  (splitOnCharAux sep s.data []).map (fun l => ⟨l⟩)

/-- The walk inside `Executor.extractJSONPath`: follow object keys; a
missing key or a non-object intermediate yields Go `nil`, modelled as
`none`. -/
def jsonWalk : JsonValue → List String → Option JsonValue
  | cur, [] => some cur
  | cur, p :: rest =>
    match cur with
    | .obj fields =>
      match alistLookup fields p with
      | some v => jsonWalk v rest
      | none => none
    | _ => none

/-- `Executor.extractJSONPath` (lines 400–417): simple dotted paths on a
JSON object body. -/
def extractJSONPath (body : JsonValue) (path : String) : Option JsonValue :=
  match body with
  | .obj fields =>
    let trimmed := goTrimStart path "$."
    let parts := goSplitOnChar trimmed '.'
    jsonWalk (.obj fields) parts
  | _ => none

/-- `Executor.extractVariables` (lines 363–398): a rule starting `$.`
walks the JSON body, `regex:` runs the regexp engine on the stringified
body, `header:` reads a response header.  There is no `cookie:` branch. -/
def extractVariables (regexExtract : JsonValue → String → String)
    (resp : Response) (extractRules : List (String × String)) :
    List (String × JsonValue) :=
  extractRules.foldl (fun extracted rule =>
    let varName := rule.1
    let r := rule.2
    let extracted :=
      if goStartsWith r "$." then
        match extractJSONPath resp.body r with
        | some v => alistInsert extracted varName v
        | none => extracted
      else extracted
    let extracted :=
      if goStartsWith r "regex:" then
        let pattern := goTrimStart r "regex:"
        let value := regexExtract resp.body pattern
        if value == "" then extracted else alistInsert extracted varName (.str value)
      else extracted
    let extracted :=
      if goStartsWith r "header:" then
        let headerName := goTrimStart r "header:"
        match alistLookup resp.headers headerName with
        | some v => alistInsert extracted varName (.str v)
        | none => extracted
      else extracted
    extracted) []

/-- A response whose `Set-Cookie` header carries the cookie `feature=true`. -/
def respFeature : Response :=
  { status := 200
    headers := [("Set-Cookie", "feature=true")]
    body := .null
    sizeBytes := 0
    error := "" }

/-! ### Iteration distribution (`Executor.executeIterations`, lines 185–230) -/

/-- VU-count normalisation at the top of `Executor.executeIterations`
(lines 186–189): zero configured VUs means one VU. -/
def vusForIterations (loadVUs : Nat) : Nat :=
  if loadVUs == 0 then 1 else loadVUs

/-- Iterations assigned to virtual user `vu` (1-based) by
`Executor.executeIterations` (lines 191–202): `iterPerVU := total / vus`,
`remainder := total % vus`, plus one when `vu ≤ remainder`. -/
def assignedIterations (total vus vu : Nat) : Nat :=
  total / vus + (if vu ≤ total % vus then 1 else 0)

/-! ### HTTP executor (`executor.Execute`, cookies.go lines 135–235)

The transport (`http.Client.Do`) and the JSON decoding of wire bytes
(`encoding/json`) are external, so they enter as the `TransportResult`
input and the `parseJson` parameter.  On a transport error the function
returns an evaluation context — not an error — with status 0 and the
transport error's message (lines 197–202); on a response it records
status, headers, size and the body parsed as JSON with a raw-text
fallback (lines 206–232). -/

inductive TransportResult where
  | transportError (msg : String)
  | response (status : Int) (headers : List (String × String)) (bodyBytes : String)

/-- `executor.Execute` restricted to the context fields the claims read
(latency measurement and the cookie-jar read/write, modelled separately
by `runSharedJar`, are omitted). -/
def Execute (parseJson : String → Option JsonValue)
    (irVars : List (String × JsonValue)) (tr : TransportResult) :
    Except String EvaluationContext :=
  match tr with
  | .transportError msg =>
    .ok { response := { status := 0, headers := [], body := .null, sizeBytes := 0, error := msg }
          vars := irVars }
  | .response status headers bodyBytes =>
    let body :=
      match parseJson bodyBytes with
      | some j => j
      | none => .str bodyBytes
    .ok { response := { status := status, headers := headers, body := body
                        sizeBytes := (bodyBytes.data.length : Int), error := "" }
          vars := irVars }

/-! ### Orchestrator retry loop (`Orchestrator.ExecuteOne`, lines 54–145)

State passed through the loop: the attempt counter, the orchestrator's
`maxRetries` field (mutable in Go — the loop condition re-reads it and
the retry arm may overwrite it), and the `Result` record.  The executor
and the evaluator subprocess are the loop's environment, indexed by the
attempt number (request mutations and the retry sleep only influence
what the next executor/evaluator call returns, which that indexing
captures; the cancellation channel is not modelled).  `fuel` drives the
structural recursion; one unit is spent per loop iteration, so any
`fuel` larger than the number of iterations gives the Go behaviour.
`execCalls` counts executor invocations and `finalMaxRetries` exposes
the `o.maxRetries` field at return, so the theorems can observe both. -/

/-- The `orchestrator.Result` fields the claims read.  `resultError` is
the struct's `Error` field — note `ExecuteOne` does NOT set it on the
`branch` arm. -/
structure GoResult where
  attempt : Nat
  context : Option EvaluationContext
  decision : Option EvaluatorDecision
  resultError : Option String

/-- Observation of one `ExecuteOne` call: the `Result`, the returned
`error` value, the number of executor invocations, and the
orchestrator's `maxRetries` field after the call. -/
structure ExecOneOut where
  result : GoResult
  retErr : Option String
  execCalls : Nat
  finalMaxRetries : Nat

/-- `fmt.Errorf("max retries exceeded: %d", o.maxRetries)`. -/
def maxRetriesMsg (m : Nat) : String :=
  "max retries exceeded: " ++ Nat.repr m

/-- `result := &Result{Attempt: 1, ...}` (lines 55–59). -/
def initResult : GoResult :=
  { attempt := 1, context := none, decision := none, resultError := none }

/-- The body of `ExecuteOne`'s `for` loop (lines 61–140) plus the
fall-through return (lines 142–144). -/
def ExecuteOneAux (exec : Nat → Except String EvaluationContext)
    (subproc : Nat → EvaluationContext → SubprocessOutcome) :
    Nat → Nat → Nat → Nat → GoResult → Option ExecOneOut
  | 0, _, _, _, _ => none
  | fuel + 1, attempt, maxR, calls, res0 =>
    if maxR < attempt then
      some ⟨{ res0 with resultError := some (maxRetriesMsg maxR) },
            some (maxRetriesMsg maxR), calls, maxR⟩
    else
      let res1 := { res0 with attempt := attempt }
      match exec attempt with
      | .error e => some ⟨{ res1 with resultError := some e }, some e, calls + 1, maxR⟩
      | .ok execCtx =>
        let res2 := { res1 with context := some execCtx }
        let decision := evalDecision (subproc attempt execCtx) execCtx
        let res3 := { res2 with decision := some decision }
        if decision.decision = "pass" then
          some ⟨res3, none, calls + 1, maxR⟩
        else if decision.decision = "fail" then
          some ⟨{ res3 with resultError := some ("evaluation failed: " ++ decision.reason) },
                some ("evaluation failed: " ++ decision.reason), calls + 1, maxR⟩
        else if decision.decision = "retry" then
          let maxR' :=
            match decision.actions with
            | some a => if 0 < a.maxRetries then a.maxRetries.toNat else maxR
            | none => maxR
          ExecuteOneAux exec subproc fuel (attempt + 1) maxR' (calls + 1) res3
        else if decision.decision = "branch" then
          some ⟨res3, some "branching not yet implemented", calls + 1, maxR⟩
        else
          ExecuteOneAux exec subproc fuel (attempt + 1) maxR (calls + 1) res3

/-- `Orchestrator.ExecuteOne`, entered with the orchestrator's
configured `maxRetries`. -/
def ExecuteOne (maxRetries fuel : Nat) (exec : Nat → Except String EvaluationContext)
    (subproc : Nat → EvaluationContext → SubprocessOutcome) : Option ExecOneOut :=
  ExecuteOneAux exec subproc fuel 1 maxRetries 0 initResult

/-- `orchestrator.Stats` restricted to the counters (latency/byte floats
are not read by any claim). -/
structure OrchStats where
  total : Nat
  success : Nat
  failed : Nat
  retried : Nat

/-- One iteration of the loop in `Orchestrator.calculateStats`
(lines 269–293): a result is failed when its `Error` field is set or its
decision is `fail`, else it is a success. -/
def statsStep (stats : OrchStats) (r : GoResult) : OrchStats :=
  let stats := { stats with total := stats.total + 1 }
  let stats :=
    if r.resultError.isSome ||
        (match r.decision with
         | some d => d.decision == "fail"
         | none => false) then
      { stats with failed := stats.failed + 1 }
    else
      { stats with success := stats.success + 1 }
  if 1 < r.attempt then { stats with retried := stats.retried + 1 } else stats

/-- `Orchestrator.calculateStats` (lines 261–300). -/
def calculateStats (results : List GoResult) : OrchStats :=
  results.foldl statsStep ⟨0, 0, 0, 0⟩

/-- An evaluator verdict that always asks for a retry and carries no
actions (hence no `max_retries` override). -/
def isRetryNoOverride (d : EvaluatorDecision) : Prop :=
  d.decision = "retry" ∧ ∀ a, d.actions = some a → a.maxRetries ≤ 0

/-- A context/verdict pair driving the concrete always-retry runs. -/
def okCtx : EvaluationContext :=
  { response := { status := 429, headers := [], body := .null, sizeBytes := 0, error := "" }
    vars := [] }

/-- An executor that always produces `okCtx`. -/
def execOk : Nat → Except String EvaluationContext := fun _ => .ok okCtx

/-- A valid verdict asking for a retry, with no actions. -/
def retryVerdict : EvaluatorDecision :=
  { decision := "retry", reason := "retry requested", actions := none }

/-- A subprocess that always returns `retryVerdict`. -/
def subprocRetry : Nat → EvaluationContext → SubprocessOutcome :=
  fun _ _ => .output (some retryVerdict)

/-- A valid verdict passing the request. -/
def passVerdict : EvaluatorDecision :=
  { decision := "pass", reason := "ok", actions := none }

/-- A valid branch verdict (has a non-empty `goto`, so `validateDecision`
accepts it and it reaches the orchestrator's `branch` arm). -/
def branchVerdict : EvaluatorDecision :=
  { decision := "branch", reason := "take the other node"
    actions := some { retryAfterMs := 0, maxRetries := 0, goto := "other" } }

/-- A subprocess that always returns `branchVerdict`. -/
def subprocBranch : Nat → EvaluationContext → SubprocessOutcome :=
  fun _ _ => .output (some branchVerdict)

/-- A retry verdict overriding the shared bound to 5. -/
def overrideVerdict : EvaluatorDecision :=
  { decision := "retry", reason := "bump bound"
    actions := some { retryAfterMs := 0, maxRetries := 5, goto := "" } }

/-- First attempt: retry with `max_retries = 5`; later attempts: pass. -/
def subprocOverride : Nat → EvaluationContext → SubprocessOutcome :=
  fun n _ => if n = 1 then .output (some overrideVerdict) else .output (some passVerdict)

/-! ### Variable substitution (`Compiler.replaceVariables` lines 228–266 and
`ReplaceRuntimeVariables` lines 268–285)

`Compiler.replaceVariables` applies `regexp.MustCompile(...)` over the
pattern dollar-brace-word-brace with `ReplaceAllStringFunc`;
`replaceRefsAux` implements that scan (leftmost match, at least one
word character, non-matches left in place) with explicit fuel so it
stays structural — any fuel of at least the string length gives the
regexp behaviour, and every use here supplies exactly the length.
`ReplaceRuntimeVariables` is a chain of `strings.ReplaceAll` calls. -/

/-- Go regexp `\w`: ASCII letters, digits, underscore. -/
def isWordChar (c : Char) : Bool := c.isAlphanum || c == '_'

/-- Scan the characters after a dollar-lbrace: collect word characters
up to a closing rbrace.  `some (name, rest)` is a candidate match. -/
def scanName : List Char → Option (List Char × List Char)
  | [] => none
  | c :: rest =>
    if c == rbrace then some ([], rest)
    else if isWordChar c then
      match scanName rest with
      | some (n, r) => some (c :: n, r)
      | none => none
    else none

/-- `regexp.ReplaceAllStringFunc` over the variable-reference pattern:
each match `dollar lbrace name rbrace` (with non-empty `name`) is
replaced by `f name`; everything else is copied. -/
def replaceRefsAux (f : String → String) : Nat → List Char → List Char
  | _, [] => []
  | 0, l => l
  | fuel + 1, c :: rest =>
    if c == '$' then
      match rest with
      | d :: rest2 =>
        if d == lbrace then
          match scanName rest2 with
          | some (name, tail) =>
            if name.isEmpty then c :: replaceRefsAux f fuel rest
            else (f ⟨name⟩).data ++ replaceRefsAux f fuel tail
          | none => c :: replaceRefsAux f fuel rest
        else c :: replaceRefsAux f fuel rest
      | [] => [c]
    else c :: replaceRefsAux f fuel rest

/-- The callback body of `Compiler.replaceVariables` (lines 233–263):
built-ins are rewritten to their runtime double-underscore forms,
compile-time variables are substituted, everything else (including
`env.`-prefixed names, which the word-only pattern can never produce)
is left as the original reference. -/
def compilerCallback (cvars : List (String × String)) (varName : String) : String :=
  if varName == "VU" || varName == "__VU" then "$\x7b__VU\x7d"
  else if varName == "ITER" || varName == "__ITER" then "$\x7b__ITER\x7d"
  else if varName == "TIME" || varName == "__TIME" then "$\x7b__TIME\x7d"
  else if varName == "UUID" || varName == "__RANDOM" then "$\x7b__RANDOM\x7d"
  else if varName == "COUNTER" || varName == "__COUNTER" then "$\x7b__COUNTER\x7d"
  else
    match alistLookup cvars varName with
    | some value => value
    | none =>
      if goStartsWith varName "env." then "$\x7b" ++ varName ++ "\x7d"
      else "$\x7b" ++ varName ++ "\x7d"

/-- `Compiler.replaceVariables`: compile-time substitution pass. -/
def replaceVariables (cvars : List (String × String)) (input : String) : String :=
  ⟨replaceRefsAux (compilerCallback cvars) input.data.length input.data⟩

/-- `scenario.ReplaceRuntimeVariables` (lines 268–285): runtime
substitution of the VU and ITER built-ins (double-underscore and plain
forms) followed by the extracted variables.  There is no replacement
for the TIME, RANDOM or COUNTER forms. -/
def ReplaceRuntimeVariables (input : String) (vu iter : Nat)
    (extractedVars : List (String × String)) : String :=
  let r := goReplaceAll input "$\x7b__VU\x7d" (Nat.repr vu)
  let r := goReplaceAll r "$\x7bVU\x7d" (Nat.repr vu)
  let r := goReplaceAll r "$\x7b__ITER\x7d" (Nat.repr iter)
  let r := goReplaceAll r "$\x7bITER\x7d" (Nat.repr iter)
  extractedVars.foldl (fun acc kv => goReplaceAll acc ("$\x7b" ++ kv.1 ++ "\x7d") kv.2) r

/-- Compile-time then runtime substitution, as applied to one template
string of a request (URL, header value or body). -/
def substitutionPipeline (cvars : List (String × String)) (template : String)
    (vu iter : Nat) (extractedVars : List (String × String)) : String :=
  ReplaceRuntimeVariables (replaceVariables cvars template) vu iter extractedVars

/-! ### Theorems -/

/-- C1: whenever the external evaluator fails (timeout, run error,
malformed JSON, or a verdict rejected by `validateDecision`), the
built-in default evaluator decides the request; the default evaluator
returns decision `pass` iff the response status is below 400, and
otherwise returns `fail` with a reason stating the status code. -/
theorem C1_default_evaluator_fallback (out : SubprocessOutcome) (ctx : EvaluationContext)
    (h : ∀ d, managerEvaluate out ≠ .ok d) :
    evalDecision out ctx = DefaultEvaluator ctx ∧
    ((DefaultEvaluator ctx).decision = "pass" ↔ ctx.response.status < 400) ∧
    (¬ ctx.response.status < 400 →
      (DefaultEvaluator ctx).decision = "fail" ∧
      (DefaultEvaluator ctx).reason = "HTTP " ++ Int.repr ctx.response.status ++ " error") := by
  refine ⟨?_, ?_, ?_⟩
  · unfold evalDecision
    cases hm : managerEvaluate out with
    | ok d => exact absurd hm (h d)
    | error e => rfl
  · simp only [DefaultEvaluator]
    by_cases hs : ctx.response.status ≥ 400
    · rw [if_pos hs]
      exact ⟨fun hfail => by simp at hfail, fun hlt => absurd hlt (by omega)⟩
    · rw [if_neg hs]
      exact ⟨fun _ => by omega, fun _ => rfl⟩
  · intro hge
    simp only [DefaultEvaluator]
    have hs : ctx.response.status ≥ 400 := by omega
    rw [if_pos hs]
    exact ⟨rfl, rfl⟩

/-- Witness for C1: a timed-out evaluator on a 404 response falls back to
the default evaluator, which fails with reason `HTTP 404 error`. -/
theorem C1_default_evaluator_fallback_witness :
    evalDecision .timeout ctx404 = DefaultEvaluator ctx404 ∧
    (DefaultEvaluator ctx404).decision = "fail" ∧
    (DefaultEvaluator ctx404).reason = "HTTP 404 error" := by
  have h := C1_default_evaluator_fallback .timeout ctx404 (by intro d; simp [managerEvaluate])
  refine ⟨h.1, (h.2.2 (by decide)).1, ?_⟩
  have := (h.2.2 (by decide)).2
  simpa using this

/-- C2 (evaluation of the code at the failing input): in a scenario run
where virtual user 1's response sets `session=abc` and virtual user 2
then issues its first request, the scenario executor's shared cookie
jar attaches VU 1's cookie to VU 2's first request — contradicting the
claimed per-VU jar isolation. -/
theorem C2_shared_jar_leaks_across_vus :
    runSharedJar [⟨1, [("session", "abc")]⟩, ⟨2, []⟩] [] =
      [(1, []), (2, [("session", "abc")])] := rfl

/-- C3 (evaluation of the code at the failing input): for the operators
`<`, `<=`, `>`, `>=` and `in`, `compareValues` returns `true`
unconditionally, so the assertion `status < 200` checks as true against
a status-500 response even though the numeric comparison is false. -/
theorem C3_comparison_operators_default_true :
    (∀ a e, compareValues a "<" e = true) ∧
    (∀ a e, compareValues a "<=" e = true) ∧
    (∀ a e, compareValues a ">" e = true) ∧
    (∀ a e, compareValues a ">=" e = true) ∧
    (∀ a e, compareValues a "in" e = true) ∧
    checkAssertionStatus "<" "200" 500 = true ∧ ¬ ((500 : Int) < 200) := by
  refine ⟨fun a e => rfl, fun a e => rfl, fun a e => rfl, fun a e => rfl, fun a e => rfl, rfl, by decide⟩

/-- C5 (evaluation of the code at the failing input): although the
response's `Set-Cookie` header carries `feature=true`, the extraction
rule `enabled = cookie:feature` binds nothing — `extractVariables` has
no `cookie:` branch, so the produced variable map is empty for every
regexp engine. -/
theorem C5_cookie_extraction_rule_binds_nothing (regexExtract : JsonValue → String → String) :
    extractVariables regexExtract respFeature [("enabled", "cookie:feature")] = [] ∧
    alistLookup respFeature.headers "Set-Cookie" = some "feature=true" :=
  ⟨rfl, rfl⟩

/-- C9: in iterations mode with `total > 0` iterations and `vus ≥ 1`
virtual users, every VU is assigned `total / vus` iterations plus one
extra for each of the first `total % vus` VUs, and the assigned counts
sum to exactly `total`. -/
theorem C9_iterations_sum_exact (total vus : Nat) (htotal : 0 < total) (hvus : 1 ≤ vus) :
    (∀ vu, assignedIterations total vus vu = total / vus + (if vu ≤ total % vus then 1 else 0)) ∧
    (∑ vu ∈ Finset.Icc 1 vus, assignedIterations total vus vu) = total := by
  refine ⟨fun vu => rfl, ?_⟩
  have hmod : total % vus < vus := Nat.mod_lt _ (by omega)
  have hfilter : (Finset.Icc 1 vus).filter (fun vu => vu ≤ total % vus) =
      Finset.Icc 1 (total % vus) := by
    ext x
    simp only [Finset.mem_filter, Finset.mem_Icc]
    omega
  have hcount : (∑ vu ∈ Finset.Icc 1 vus, if vu ≤ total % vus then 1 else 0) = total % vus := by
    rw [← Finset.card_filter, hfilter, Nat.card_Icc]
    omega
  have hconst : (∑ _vu ∈ Finset.Icc 1 vus, total / vus) = vus * (total / vus) := by
    rw [Finset.sum_const, Nat.card_Icc, smul_eq_mul, Nat.add_sub_cancel]
  calc (∑ vu ∈ Finset.Icc 1 vus, assignedIterations total vus vu)
      = (∑ vu ∈ Finset.Icc 1 vus, (total / vus + if vu ≤ total % vus then 1 else 0)) := rfl
    _ = (∑ _vu ∈ Finset.Icc 1 vus, total / vus) +
        (∑ vu ∈ Finset.Icc 1 vus, if vu ≤ total % vus then 1 else 0) := Finset.sum_add_distrib
    _ = vus * (total / vus) + total % vus := by rw [hconst, hcount]
    _ = total := Nat.div_add_mod total vus

/-- Witness for C9: 7 iterations over 3 VUs assign 3, 2, 2 iterations. -/
theorem C9_iterations_sum_exact_witness :
    (∑ vu ∈ Finset.Icc 1 3, assignedIterations 7 3 vu) = 7 ∧
    assignedIterations 7 3 1 = 3 ∧ assignedIterations 7 3 2 = 2 ∧ assignedIterations 7 3 3 = 2 := by
  refine ⟨(C9_iterations_sum_exact 7 3 (by decide) (by decide)).2, by decide, by decide, by decide⟩

/-- Helper: when the executor always yields a context and every verdict
is a retry without override, the loop runs the remaining
`maxR + 1 - attempt` attempts and exits with the max-retries failure. -/
theorem executeOneAux_always_retry
    (exec : Nat → Except String EvaluationContext)
    (subproc : Nat → EvaluationContext → SubprocessOutcome)
    (hexec : ∀ n, ∃ c, exec n = .ok c)
    (hdec : ∀ n c, isRetryNoOverride (evalDecision (subproc n c) c)) :
    ∀ fuel attempt maxR calls res,
      maxR + 1 - attempt < fuel →
      ∃ out, ExecuteOneAux exec subproc fuel attempt maxR calls res = some out ∧
        out.execCalls = calls + (maxR + 1 - attempt) ∧
        out.retErr = some (maxRetriesMsg maxR) ∧
        out.result.resultError = some (maxRetriesMsg maxR) ∧
        out.finalMaxRetries = maxR := by
  intro fuel
  induction fuel with
  | zero =>
    intro attempt maxR calls res h2
    omega
  | succ f ih =>
    intro attempt maxR calls res h2
    by_cases hgt : maxR < attempt
    · refine ⟨⟨{ res with resultError := some (maxRetriesMsg maxR) },
               some (maxRetriesMsg maxR), calls, maxR⟩, ?_, ?_, rfl, rfl, rfl⟩
      · simp [ExecuteOneAux, hgt]
      · simp only []
        omega
    · obtain ⟨c, hc⟩ := hexec attempt
      obtain ⟨hretry, hover⟩ := hdec attempt c
      have hne1 : ¬ (evalDecision (subproc attempt c) c).decision = "pass" := by
        rw [hretry]; decide
      have hne2 : ¬ (evalDecision (subproc attempt c) c).decision = "fail" := by
        rw [hretry]; decide
      have hmaxR' :
          (match (evalDecision (subproc attempt c) c).actions with
           | some a => if 0 < a.maxRetries then a.maxRetries.toNat else maxR
           | none => maxR) = maxR := by
        cases hda : (evalDecision (subproc attempt c) c).actions with
        | none => rfl
        | some a =>
          have := hover a hda
          show (if 0 < a.maxRetries then a.maxRetries.toNat else maxR) = maxR
          rw [if_neg (by omega)]
      have hstep :
          ExecuteOneAux exec subproc (f + 1) attempt maxR calls res =
          ExecuteOneAux exec subproc f (attempt + 1) maxR (calls + 1)
            { { res with attempt := attempt, context := some c } with
                decision := some (evalDecision (subproc attempt c) c) } := by
        simp only [ExecuteOneAux, if_neg hgt, hc, if_neg hne1, if_neg hne2,
          if_pos hretry, hmaxR']
      obtain ⟨out, hout, hcalls, herr, hres, hfin⟩ :=
        ih (attempt + 1) maxR (calls + 1)
          { { res with attempt := attempt, context := some c } with
              decision := some (evalDecision (subproc attempt c) c) } (by omega)
      refine ⟨out, by rw [hstep]; exact hout, ?_, herr, hres, hfin⟩
      rw [hcalls]
      omega

/-- C4 counterexample: with the configured bound 3 and an evaluator that
always returns a retry verdict without override, the loop makes exactly
3 executor calls and returns the failure reason
`max retries exceeded: 3` — which is not the string
`max retries exceeded` the claim states. -/
theorem C4_reason_not_exact_counterexample :
    ExecuteOne 3 4 execOk subprocRetry =
      some ⟨⟨3, some okCtx, some retryVerdict, some "max retries exceeded: 3"⟩,
            some "max retries exceeded: 3", 3, 3⟩ ∧
    ¬ ("max retries exceeded: 3" = "max retries exceeded") := by
  exact ⟨rfl, by decide⟩

/-- C4 (amended): when every attempt yields a retry verdict with no
`max_retries` override, the loop performs exactly the configured
`maxRetries` executor attempts and then returns a failure whose reason
is `max retries exceeded: <bound>`, issuing no further attempts. -/
theorem C4_retry_loop_exhausts_bound (maxRetries : Nat)
    (exec : Nat → Except String EvaluationContext)
    (subproc : Nat → EvaluationContext → SubprocessOutcome)
    (hpos : 0 < maxRetries)
    (hexec : ∀ n, ∃ c, exec n = .ok c)
    (hdec : ∀ n c, isRetryNoOverride (evalDecision (subproc n c) c)) :
    ∃ out, ExecuteOne maxRetries (maxRetries + 1) exec subproc = some out ∧
      out.execCalls = maxRetries ∧
      out.retErr = some (maxRetriesMsg maxRetries) ∧
      out.result.resultError = some (maxRetriesMsg maxRetries) := by
  obtain ⟨out, hout, hcalls, herr, hres, _⟩ :=
    executeOneAux_always_retry exec subproc hexec hdec (maxRetries + 1) 1 maxRetries 0
      initResult (by omega)
  exact ⟨out, hout, by omega, herr, hres⟩

/-- Witness for C4: bound 3, always-retry evaluator — exactly 3 attempts
and the max-retries failure. -/
theorem C4_retry_loop_exhausts_bound_witness :
    ∃ out, ExecuteOne 3 4 execOk subprocRetry = some out ∧
      out.execCalls = 3 ∧
      out.retErr = some (maxRetriesMsg 3) ∧
      out.result.resultError = some (maxRetriesMsg 3) := by
  refine C4_retry_loop_exhausts_bound 3 execOk subprocRetry (by decide)
    (fun n => ⟨okCtx, rfl⟩) (fun n c => ⟨rfl, fun a h => by cases h⟩)

/-- C7 (evaluation of the code at the failing input): on a `branch`
verdict `ExecuteOne` does return the error `branching not yet
implemented`, but it leaves the result's `Error` field unset, so
`calculateStats` counts that result as a success (success = 1,
failed = 0) — the outcome is recorded as a pass in the aggregated
statistics. -/
theorem C7_branch_counted_as_success :
    ExecuteOne 3 4 execOk subprocBranch =
      some ⟨⟨1, some okCtx, some branchVerdict, none⟩,
            some "branching not yet implemented", 1, 3⟩ ∧
    calculateStats [⟨1, some okCtx, some branchVerdict, none⟩] = ⟨1, 1, 0, 0⟩ :=
  ⟨rfl, rfl⟩

/-- C8: when the transport fails before any response, `Execute` returns
an evaluation context (not an error) with status 0 and the transport
error's non-empty message in the error string, and the retry loop still
invokes the evaluator on exactly that context (here observed on the
pass path: the recorded decision is the evaluator's verdict for the
transport-error context). -/
theorem C8_transport_error_still_evaluated (parseJson : String → Option JsonValue)
    (irVars : List (String × JsonValue)) (msg : String)
    (subproc : Nat → EvaluationContext → SubprocessOutcome) (hmsg : msg ≠ "") :
    ∃ ctx, Execute parseJson irVars (.transportError msg) = .ok ctx ∧
      ctx.response.status = 0 ∧ ctx.response.error = msg ∧ ctx.response.error ≠ "" ∧
      ((evalDecision (subproc 1 ctx) ctx).decision = "pass" →
        ExecuteOne 1 2 (fun _ => Execute parseJson irVars (.transportError msg)) subproc =
          some ⟨⟨1, some ctx, some (evalDecision (subproc 1 ctx) ctx), none⟩, none, 1, 1⟩) := by
  refine ⟨_, rfl, rfl, rfl, hmsg, ?_⟩
  intro hpass
  simp only [ExecuteOne, ExecuteOneAux, Execute, initResult]
  rw [if_neg (show ¬ (1:Nat) < 1 by omega), if_pos hpass]

/-- Witness for C8: a refused connection yields a status-0 context with
a non-empty error string, and a passing evaluator's verdict is recorded
for it. -/
theorem C8_transport_error_still_evaluated_witness :
    ∃ ctx, Execute (fun _ => none) [] (.transportError "connection refused") = .ok ctx ∧
      ctx.response.status = 0 ∧ ctx.response.error ≠ "" ∧
      ExecuteOne 1 2 (fun _ => Execute (fun _ => none) [] (.transportError "connection refused"))
          (fun _ _ => .output (some passVerdict)) =
        some ⟨⟨1, some ctx, some passVerdict, none⟩, none, 1, 1⟩ := by
  obtain ⟨ctx, h1, h2, _, h4, h5⟩ :=
    C8_transport_error_still_evaluated (fun _ => none) [] "connection refused"
      (fun _ _ => .output (some passVerdict)) (by decide)
  exact ⟨ctx, h1, h2, h4, h5 rfl⟩

/-- C10: a retry verdict whose actions carry `max_retries = m > 0` makes
the loop overwrite the orchestrator's shared `maxRetries` field with
`m` (`o.maxRetries = decision.Actions.MaxRetries`, lines 128–131), and
since `NewOrchestrator` stores that field on the shared instance, the
new bound governs every later `ExecuteOne` call on the same
orchestrator: a subsequent always-retry request runs exactly `m`
attempts against bound `m`. -/
theorem C10_override_rebinds_shared_bound
    (m maxR0 : Nat) (hm : 2 ≤ m) (h0 : 1 ≤ maxR0)
    (exec : Nat → Except String EvaluationContext)
    (subproc : Nat → EvaluationContext → SubprocessOutcome)
    (exec2 : Nat → Except String EvaluationContext)
    (subproc2 : Nat → EvaluationContext → SubprocessOutcome)
    (hexec : ∀ n, ∃ c, exec n = .ok c)
    (hd1 : ∀ c, (evalDecision (subproc 1 c) c).decision = "retry" ∧
      ∃ a, (evalDecision (subproc 1 c) c).actions = some a ∧ a.maxRetries = (m : Int))
    (hd2 : ∀ c, (evalDecision (subproc 2 c) c).decision = "pass")
    (hexec2 : ∀ n, ∃ c, exec2 n = .ok c)
    (hdec2 : ∀ n c, isRetryNoOverride (evalDecision (subproc2 n c) c)) :
    ∃ out1, ExecuteOne maxR0 2 exec subproc = some out1 ∧ out1.finalMaxRetries = m ∧
      ∃ out2, ExecuteOne out1.finalMaxRetries (m + 1) exec2 subproc2 = some out2 ∧
        out2.execCalls = m ∧ out2.retErr = some (maxRetriesMsg m) ∧
        out2.result.resultError = some (maxRetriesMsg m) := by
  obtain ⟨c1, hc1⟩ := hexec 1
  obtain ⟨hretry1, a, ha, ham⟩ := hd1 c1
  obtain ⟨c2, hc2⟩ := hexec 2
  have hpass2 := hd2 c2
  have hne1 : ¬ (evalDecision (subproc 1 c1) c1).decision = "pass" := by
    rw [hretry1]; decide
  have hne2 : ¬ (evalDecision (subproc 1 c1) c1).decision = "fail" := by
    rw [hretry1]; decide
  have hmaxR' :
      (match (evalDecision (subproc 1 c1) c1).actions with
       | some a => if 0 < a.maxRetries then a.maxRetries.toNat else maxR0
       | none => maxR0) = m := by
    rw [ha]
    show (if 0 < a.maxRetries then a.maxRetries.toNat else maxR0) = m
    rw [if_pos (by rw [ham]; exact_mod_cast (by omega : 0 < m))]
    rw [ham]
    exact Int.toNat_natCast m
  have hstep1 :
      ExecuteOne maxR0 2 exec subproc =
      ExecuteOneAux exec subproc 1 2 m 1
        ⟨1, some c1, some (evalDecision (subproc 1 c1) c1), none⟩ := by
    simp only [ExecuteOne, ExecuteOneAux, if_neg (show ¬ maxR0 < 1 by omega), hc1,
      if_neg hne1, if_neg hne2, if_pos hretry1, hmaxR', initResult]
  have hstep2 :
      ExecuteOneAux exec subproc 1 2 m 1
        ⟨1, some c1, some (evalDecision (subproc 1 c1) c1), none⟩ =
      some ⟨⟨2, some c2, some (evalDecision (subproc 2 c2) c2), none⟩, none, 2, m⟩ := by
    simp only [ExecuteOneAux, if_neg (show ¬ m < 2 by omega), hc2, if_pos hpass2]
  refine ⟨⟨⟨2, some c2, some (evalDecision (subproc 2 c2) c2), none⟩, none, 2, m⟩,
    hstep1.trans hstep2, rfl, ?_⟩
  obtain ⟨out2, hout2, hcalls2, herr2, hres2, _⟩ :=
    executeOneAux_always_retry exec2 subproc2 hexec2 hdec2 (m + 1) 1 m 0 initResult (by omega)
  exact ⟨out2, hout2, by omega, herr2, hres2⟩

/-- Witness for C10: starting from bound 3, a retry verdict carrying
`max_retries = 5` leaves the orchestrator's bound at 5, and a later
always-retry request on the same orchestrator runs exactly 5 attempts. -/
theorem C10_override_rebinds_shared_bound_witness :
    ∃ out1, ExecuteOne 3 2 execOk subprocOverride = some out1 ∧ out1.finalMaxRetries = 5 ∧
      ∃ out2, ExecuteOne out1.finalMaxRetries 6 execOk subprocRetry = some out2 ∧
        out2.execCalls = 5 ∧ out2.retErr = some (maxRetriesMsg 5) ∧
        out2.result.resultError = some (maxRetriesMsg 5) := by
  refine C10_override_rebinds_shared_bound 5 3 (by decide) (by decide)
    execOk subprocOverride execOk subprocRetry
    (fun n => ⟨okCtx, rfl⟩)
    (fun c => ⟨rfl, ⟨⟨0, 5, ""⟩, rfl, rfl⟩⟩)
    (fun c => rfl)
    (fun n => ⟨okCtx, rfl⟩)
    (fun n c => ⟨rfl, fun a h => by cases h⟩)

/-! #### Lemmas about `goReplaceAll` -/

theorem listStartsWith_self (l : List Char) : listStartsWith l l = true := by
  induction l with
  | nil => rfl
  | cons c cs ih => simp [listStartsWith, ih]

theorem replaceAllAux_zero (pat rep : List Char) (s : List Char) :
    replaceAllAux pat rep 0 s = s := by
  cases s <;> rfl

theorem replaceAllAux_eq_rep (p : Char) (ps rep : List Char) (fuel : Nat) :
    replaceAllAux (p :: ps) rep (fuel + 1) (p :: ps) = rep := by
  have hlen : (p :: ps).length - 1 = ps.length := by simp
  simp only [replaceAllAux, listStartsWith_self, if_pos, hlen, List.drop_length]
  cases fuel <;> simp [replaceAllAux]

/-- Replacing a non-empty pattern inside exactly itself yields the replacement. -/
theorem goReplaceAll_self (pat rep : String) (h : ¬ pat.data = []) :
    goReplaceAll pat pat rep = rep := by
  cases hd : pat.data with
  | nil => exact absurd hd h
  | cons p ps =>
    simp only [goReplaceAll, hd, List.isEmpty_cons, if_false, Bool.false_eq_true]
    rw [List.length_cons, replaceAllAux_eq_rep]

theorem replaceAllAux_no_occur (pat rep : List Char) :
    ∀ (s : List Char), listContains pat s = false →
      ∀ fuel, replaceAllAux pat rep fuel s = s := by
  intro s
  induction s with
  | nil => intro _ fuel; cases fuel <;> rfl
  | cons c rest ih =>
    intro h fuel
    have hsplit : listStartsWith pat (c :: rest) = false ∧ listContains pat rest = false := by
      have := h
      simp only [listContains, Bool.or_eq_false_iff] at this
      exact this
    cases fuel with
    | zero => rfl
    | succ f =>
      simp only [replaceAllAux, hsplit.1, Bool.false_eq_true, if_false]
      rw [ih hsplit.2 f]

/-- Replacing a pattern that does not occur leaves the string unchanged. -/
theorem goReplaceAll_no_occur (s pat rep : String)
    (h : listContains pat.data s.data = false) :
    goReplaceAll s pat rep = s := by
  unfold goReplaceAll
  by_cases he : pat.data.isEmpty
  · rw [if_pos he]
  · rw [if_neg he, replaceAllAux_no_occur pat.data rep.data s.data h]

/-! #### Characters of `Nat.repr` are digit characters, hence never a dollar -/

theorem dollar_beq_digitChar (m : Nat) : ('$' == Nat.digitChar m) = false := by
  match m with
  | 0 | 1 | 2 | 3 | 4 | 5 | 6 | 7 | 8 | 9 | 10 | 11 | 12 | 13 | 14 | 15 => rfl
  | m + 16 => rfl

theorem mem_toDigitsCore (b : Nat) :
    ∀ (fuel n : Nat) (acc : List Char) (c : Char),
      c ∈ Nat.toDigitsCore b fuel n acc → (∃ m, c = Nat.digitChar m) ∨ c ∈ acc := by
  intro fuel
  induction fuel with
  | zero =>
    intro n acc c hc
    right
    simpa [Nat.toDigitsCore] using hc
  | succ f ih =>
    intro n acc c hc
    simp only [Nat.toDigitsCore] at hc
    by_cases h : n / b = 0
    · rw [if_pos h] at hc
      rcases List.mem_cons.mp hc with h1 | h1
      · exact Or.inl ⟨n % b, h1⟩
      · exact Or.inr h1
    · rw [if_neg h] at hc
      rcases ih (n / b) ((n % b).digitChar :: acc) c hc with h1 | h1
      · exact Or.inl h1
      · rcases List.mem_cons.mp h1 with h2 | h2
        · exact Or.inl ⟨n % b, h2⟩
        · exact Or.inr h2

theorem repr_char_digit (n : Nat) :
    ∀ c ∈ (Nat.repr n).data, ∃ m, c = Nat.digitChar m := by
  intro c hc
  have hdata : (Nat.repr n).data = Nat.toDigitsCore 10 (n + 1) n [] := rfl
  rw [hdata] at hc
  rcases mem_toDigitsCore 10 (n + 1) n [] c hc with h | h
  · exact h
  · exact absurd h (List.not_mem_nil c)

theorem dollar_beq_repr (n : Nat) :
    ∀ c ∈ (Nat.repr n).data, ('$' == c) = false := by
  intro c hc
  obtain ⟨m, rfl⟩ := repr_char_digit n c hc
  exact dollar_beq_digitChar m

theorem contains_false_of_no_dollar (ps : List Char) :
    ∀ (s : List Char), (∀ c ∈ s, ('$' == c) = false) →
      listContains ('$' :: ps) s = false := by
  intro s
  induction s with
  | nil => intro _; rfl
  | cons c rest ih =>
    intro h
    have hhead : ('$' == c) = false := h c (List.mem_cons_self c rest)
    simp only [listContains, listStartsWith, hhead, Bool.false_and, Bool.false_or]
    exact ih (fun x hx => h x (List.mem_cons_of_mem c hx))

/-- A pattern beginning with a dollar never occurs inside the decimal
rendering of a number. -/
theorem goReplaceAll_repr_no_dollar (n : Nat) (pat rep : String) (ps : List Char)
    (hp : pat.data = '$' :: ps) :
    goReplaceAll (Nat.repr n) pat rep = Nat.repr n := by
  apply goReplaceAll_no_occur
  rw [hp]
  exact contains_false_of_no_dollar ps _ (dollar_beq_repr n)

/-- C6 counterexample (claim as stated, at a concrete input): for the
template containing the built-in reference TIME, compile-time plus
runtime substitution at VU 1, iteration 1 does NOT resolve the
reference — the result is the rewritten reference `__TIME`, still an
unresolved dollar-brace token in the outgoing request. -/
theorem C6_time_reference_left_unresolved :
    substitutionPipeline [] "$\x7bTIME\x7d" 1 1 [] = "$\x7b__TIME\x7d" ∧
    goContains (substitutionPipeline [] "$\x7bTIME\x7d" 1 1 []) "$\x7b" = true :=
  ⟨rfl, rfl⟩

/-- C6 (amended): compile-time substitution rewrites the five built-ins
to their double-underscore runtime forms, and runtime substitution then
resolves VU and ITER to the virtual-user id and the iteration number;
but TIME, UUID and COUNTER have no runtime replacement, so they survive
as the unresolved tokens `__TIME`, `__RANDOM` and `__COUNTER`. -/
theorem C6_builtin_resolution (vu iter : Nat) :
    substitutionPipeline [] "$\x7bVU\x7d" vu iter [] = Nat.repr vu ∧
    substitutionPipeline [] "$\x7bITER\x7d" vu iter [] = Nat.repr iter ∧
    substitutionPipeline [] "$\x7bTIME\x7d" vu iter [] = "$\x7b__TIME\x7d" ∧
    substitutionPipeline [] "$\x7bUUID\x7d" vu iter [] = "$\x7b__RANDOM\x7d" ∧
    substitutionPipeline [] "$\x7bCOUNTER\x7d" vu iter [] = "$\x7b__COUNTER\x7d" := by
  refine ⟨?_, ?_, ?_, ?_, ?_⟩
  · show ReplaceRuntimeVariables "$\x7b__VU\x7d" vu iter [] = Nat.repr vu
    simp only [ReplaceRuntimeVariables, List.foldl]
    rw [goReplaceAll_self "$\x7b__VU\x7d" (Nat.repr vu) (by decide),
        goReplaceAll_repr_no_dollar vu "$\x7bVU\x7d" (Nat.repr vu) "\x7bVU\x7d".data rfl,
        goReplaceAll_repr_no_dollar vu "$\x7b__ITER\x7d" (Nat.repr iter) "\x7b__ITER\x7d".data rfl,
        goReplaceAll_repr_no_dollar vu "$\x7bITER\x7d" (Nat.repr iter) "\x7bITER\x7d".data rfl]
  · show ReplaceRuntimeVariables "$\x7b__ITER\x7d" vu iter [] = Nat.repr iter
    simp only [ReplaceRuntimeVariables, List.foldl]
    rw [goReplaceAll_no_occur "$\x7b__ITER\x7d" "$\x7b__VU\x7d" (Nat.repr vu) (by decide),
        goReplaceAll_no_occur "$\x7b__ITER\x7d" "$\x7bVU\x7d" (Nat.repr vu) (by decide),
        goReplaceAll_self "$\x7b__ITER\x7d" (Nat.repr iter) (by decide),
        goReplaceAll_repr_no_dollar iter "$\x7bITER\x7d" (Nat.repr iter) "\x7bITER\x7d".data rfl]
  · show ReplaceRuntimeVariables "$\x7b__TIME\x7d" vu iter [] = "$\x7b__TIME\x7d"
    simp only [ReplaceRuntimeVariables, List.foldl]
    rw [goReplaceAll_no_occur "$\x7b__TIME\x7d" "$\x7b__VU\x7d" (Nat.repr vu) (by decide),
        goReplaceAll_no_occur "$\x7b__TIME\x7d" "$\x7bVU\x7d" (Nat.repr vu) (by decide),
        goReplaceAll_no_occur "$\x7b__TIME\x7d" "$\x7b__ITER\x7d" (Nat.repr iter) (by decide),
        goReplaceAll_no_occur "$\x7b__TIME\x7d" "$\x7bITER\x7d" (Nat.repr iter) (by decide)]
  · show ReplaceRuntimeVariables "$\x7b__RANDOM\x7d" vu iter [] = "$\x7b__RANDOM\x7d"
    simp only [ReplaceRuntimeVariables, List.foldl]
    rw [goReplaceAll_no_occur "$\x7b__RANDOM\x7d" "$\x7b__VU\x7d" (Nat.repr vu) (by decide),
        goReplaceAll_no_occur "$\x7b__RANDOM\x7d" "$\x7bVU\x7d" (Nat.repr vu) (by decide),
        goReplaceAll_no_occur "$\x7b__RANDOM\x7d" "$\x7b__ITER\x7d" (Nat.repr iter) (by decide),
        goReplaceAll_no_occur "$\x7b__RANDOM\x7d" "$\x7bITER\x7d" (Nat.repr iter) (by decide)]
  · show ReplaceRuntimeVariables "$\x7b__COUNTER\x7d" vu iter [] = "$\x7b__COUNTER\x7d"
    simp only [ReplaceRuntimeVariables, List.foldl]
    rw [goReplaceAll_no_occur "$\x7b__COUNTER\x7d" "$\x7b__VU\x7d" (Nat.repr vu) (by decide),
        goReplaceAll_no_occur "$\x7b__COUNTER\x7d" "$\x7bVU\x7d" (Nat.repr vu) (by decide),
        goReplaceAll_no_occur "$\x7b__COUNTER\x7d" "$\x7b__ITER\x7d" (Nat.repr iter) (by decide),
        goReplaceAll_no_occur "$\x7b__COUNTER\x7d" "$\x7bITER\x7d" (Nat.repr iter) (by decide)]

end HttpTool
